import Mathlib

/-!
Shallow embedding of the `tracing-mock` expectation code in
`src/tracing-mock/src/event.rs`, together with the collaborator
components (`ExpectedMetadata`, `ExpectedFields`, `Parent`,
`ExpectedSpan`) that `event.rs` uses; those collaborator files are not
part of the provided sources, so their behaviour is modelled from the
specification. Panics of the Rust code are modelled as `Except.error`
results carrying a structured `Failure` value, and Rust's sequential
`assert!`/panic control flow becomes `Except` sequencing, so that the
first failing stage determines the result.
-/

namespace TracingMock

/-- Verbosity levels of the tracing framework, ordered
TRACE < DEBUG < INFO < WARN < ERROR. -/
inductive Level where
| trace
| debug
| info
| warn
| error
deriving DecidableEq, Repr

/-- Span identifiers handed out by the host framework (opaque). -/
abbrev SpanId := Nat

/-- Actual static metadata of an incoming callback: name, target, level
and whether the callback is truly an event (as opposed to a span). -/
structure Metadata where
  name : String
  target : String
  level : Level
  is_event : Bool
deriving DecidableEq, Repr

/-- Modelled from the spec: `ExpectedMetadata` (file `metadata.rs` is not
among the provided sources) — optional name, optional target string,
optional level; each present field means "must equal", absent means
"unconstrained"; immutable once built. -/
structure ExpectedMetadata where
  name : Option String := none
  target : Option String := none
  level : Option Level := none
deriving DecidableEq, Repr

/-- A recorded field value; one constructor per primitive value kind the
field comparison supports (string, signed integer, unsigned integer,
boolean, debug-rendered object). -/
inductive FieldValue where
| str (s : String)
| int (i : Int)
| uint (n : Nat)
| bool (b : Bool)
| debug (s : String)
deriving DecidableEq, Repr

/-- Modelled from the spec: the expected-value matcher of
`ExpectedFields` (file `field.rs` is not among the provided sources) —
exact value, "any value", or "must be absent". -/
inductive ExpectedValue where
| value (v : FieldValue)
| any
| absent
deriving DecidableEq, Repr

/-- Modelled from the spec: the mode flag of `ExpectedFields` — `Exact`
(actual field set must equal the expected set) or `Contains` (actual
must be a superset). -/
inductive FieldMode where
| exact
| contains
deriving DecidableEq, Repr

/-- Modelled from the spec: `ExpectedFields` (file `field.rs` is not
among the provided sources) — a mapping from field name to an
expected-value matcher, plus the mode flag. -/
structure ExpectedFields where
  fields : List (String × ExpectedValue)
  mode : FieldMode
deriving DecidableEq, Repr

/-- Modelled from the spec: the parent constraint enum `Parent` (its
defining file is not among the provided sources) — `ExplicitRoot` (must
have no explicit parent even if a contextual parent is active),
`Explicit(name)` (must have the named span as explicit parent),
`ContextualRoot`, `Contextual(name)`; absence of any constraint is
represented by `Option.none` at the use site. -/
inductive Parent where
| explicitRoot
| explicitNamed (name : String)
| contextualRoot
| contextualNamed (name : String)
deriving DecidableEq, Repr

/-- Modelled from the spec: `ExpectedSpan` (file `span.rs` is not among
the provided sources) — expected metadata, fields and parent constraint
for one span; the enter/exit/close/clone counts are omitted because no
claim about `event.rs` depends on them. -/
structure ExpectedSpan where
  metadata : ExpectedMetadata := {}
  fields : Option ExpectedFields := none
  parent : Option Parent := none
deriving DecidableEq, Repr

/-- One discrepancy found while matching recorded fields. -/
inductive FieldFailure where
| wrongValue (key : String) (expected : ExpectedValue) (actual : FieldValue)
| unexpectedField (key : String) (actual : FieldValue)
| missingField (key : String)
deriving DecidableEq, Repr

/-- A failure (Rust panic) raised while checking an expectation, with the
collector label and context that the panic message carries. -/
inductive Failure where
| metadataMismatch (collector : String) (ctx : String) (mismatched : List String)
| kindMismatch (collector : String)
| fieldMismatch (collector : String) (ctx : String) (failures : List FieldFailure)
| parentMismatch (collector : String) (ctx : String)
deriving DecidableEq, Repr

/-- The actual event delivered by the framework, restricted to the
surface that `ExpectedEvent::check` consumes: its metadata, the
key/value pairs its recorder visits in order, and the explicit parent
span id passed at the emission site (if any). -/
structure Event where
  metadata : Metadata
  fields : List (String × FieldValue)
  parent : Option SpanId
deriving DecidableEq, Repr

/-- Attributes on which the declared metadata disagrees with the actual
metadata; an unconstrained (absent) attribute contributes nothing, and
level comparison is exact equality. -/
def ExpectedMetadata.mismatchedAttrs (em : ExpectedMetadata) (actual : Metadata) :
    List String :=
  (match em.name with
   | some n => if n = actual.name then [] else ["name"]
   | none => []) ++
  (match em.target with
   | some t => if t = actual.target then [] else ["target"]
   | none => []) ++
  (match em.level with
   | some l => if l = actual.level then [] else ["level"]
   | none => [])

/-- Modelled from the spec: `ExpectedMetadata::check` (file `metadata.rs`
is not among the provided sources) — compares declared-vs-actual static
descriptors with "unspecified = don't care" semantics; unconstrained
attributes never fail, level comparison is exact equality; on
disagreement it fails with a description identifying the differing
attribute(s), the context and the collector's label. -/
def ExpectedMetadata.check (em : ExpectedMetadata) (actual : Metadata)
    (ctx collector : String) : Except Failure Unit :=
  if em.mismatchedAttrs actual = [] then
    Except.ok ()
  else
    Except.error (Failure.metadataMismatch collector ctx (em.mismatchedAttrs actual))

/-- First matcher declared for the key, if any. -/
def lookupField (l : List (String × ExpectedValue)) (k : String) :
    Option ExpectedValue :=
  (l.find? (fun p => p.1 == k)).map Prod.snd

/-- Whether an actual value satisfies the declared matcher: exact values
by primitive equality, `any` always, `absent` never (the field showed
up even though it must be absent). -/
def ExpectedValue.accepts : ExpectedValue → FieldValue → Bool
| ExpectedValue.value v, actual => v == actual
| ExpectedValue.any, _ => true
| ExpectedValue.absent, _ => false

/-- A matcher that requires the field to be present in the actual set. -/
def ExpectedValue.requiresPresence : ExpectedValue → Bool
| ExpectedValue.absent => false
| _ => true

/-- Modelled from the spec: the field checker produced by
`ExpectedFields::checker(name, collector_name)` (file `field.rs` is not
among the provided sources) — it implements the framework's
field-recording visitor over a single pass and accumulates every
discrepancy instead of short-circuiting. -/
structure Checker where
  expected : ExpectedFields
  seen : List String
  failures : List FieldFailure
  ctx : String
  collector : String
deriving DecidableEq, Repr

/-- Create the visitor for one event or span, remembering the context
name and the collector label for the final report. -/
def ExpectedFields.checker (f : ExpectedFields) (ctx collector : String) : Checker :=
  { expected := f, seen := [], failures := [], ctx := ctx, collector := collector }

/-- Visit one actual key/value pair: a declared field that matches is
marked seen; a declared field that does not match records a failure; an
undeclared field is a failure under `Exact` mode and is ignored under
`Contains` mode. No failure is raised here — they only accumulate. -/
def Checker.visit (c : Checker) (key : String) (v : FieldValue) : Checker :=
  match lookupField c.expected.fields key with
  | some m =>
    if m.accepts v then
      { c with seen := c.seen ++ [key] }
    else
      { c with failures := c.failures ++ [FieldFailure.wrongValue key m v] }
  | none =>
    match c.expected.mode with
    | FieldMode.exact => { c with failures := c.failures ++ [FieldFailure.unexpectedField key v] }
    | FieldMode.contains => c

/-- The single pass of `event.record(&mut checker)`: fold the visitor
over the recorded key/value pairs in order. -/
def Checker.record (c : Checker) (l : List (String × FieldValue)) : Checker :=
  l.foldl (fun c kv => c.visit kv.1 kv.2) c

/-- Declared fields that require presence and were never marked seen
during the pass, reported as missing. -/
def Checker.missingFailures (c : Checker) : List FieldFailure :=
  (c.expected.fields.filter
    (fun p => p.2.requiresPresence && !(c.seen.contains p.1))).map
    (fun p => FieldFailure.missingField p.1)

/-- Modelled from the spec: `finish` of the field checker (file
`field.rs` is not among the provided sources) — converts the
accumulated failures, together with the missing-field failures, into a
single descriptive report that carries the collector's label and the
event/span name; succeeds when there is no discrepancy. -/
def Checker.finish (c : Checker) : Except Failure Unit :=
  let all := c.failures ++ c.missingFailures
  if all = [] then
    Except.ok ()
  else
    Except.error (Failure.fieldMismatch c.collector c.ctx all)

/-- Modelled from the spec: `Parent::check_parent_name` (its defining
file is not among the provided sources) — exact identity/name comparison
against the resolved actual parent, honouring `ExplicitRoot` and
`ContextualRoot` meaning "no parent": `ExplicitRoot` requires no
explicit parent even if a contextual parent is active; `Explicit(name)`
requires an explicit parent whose resolved name is exactly `name`; the
contextual constraints require no explicit parent and compare the
contextually resolved name. -/
def Parent.check_parent_name (p : Parent) (parentName : Option String)
    (providedParent : Option SpanId) (ctx collector : String) :
    Except Failure Unit :=
  match p with
  | Parent.explicitRoot =>
    match providedParent with
    | none => Except.ok ()
    | some _ => Except.error (Failure.parentMismatch collector ctx)
  | Parent.explicitNamed name =>
    match providedParent with
    | none => Except.error (Failure.parentMismatch collector ctx)
    | some _ =>
      if parentName = some name then Except.ok ()
      else Except.error (Failure.parentMismatch collector ctx)
  | Parent.contextualRoot =>
    match providedParent, parentName with
    | none, none => Except.ok ()
    | _, _ => Except.error (Failure.parentMismatch collector ctx)
  | Parent.contextualNamed name =>
    match providedParent with
    | some _ => Except.error (Failure.parentMismatch collector ctx)
    | none =>
      if parentName = some name then Except.ok ()
      else Except.error (Failure.parentMismatch collector ctx)

/-- The expectation descriptor of `event.rs`: optional expected fields,
optional parent constraint, the enclosing-scope sequence, and the
expected metadata. -/
structure ExpectedEvent where
  fields : Option ExpectedFields := none
  parent : Option Parent := none
  in_spans : List ExpectedSpan := []
  metadata : ExpectedMetadata := {}
deriving DecidableEq, Repr

/-- The value produced by `ExpectedEvent::default()` (the `Default`
derive): no fields, no parent constraint, empty scope, fully
unconstrained metadata. -/
def ExpectedEvent.default : ExpectedEvent :=
  { fields := none
    parent := none
    in_spans := []
    metadata := { name := none, target := none, level := none } }

/-- `ExpectedEvent::named`: sets the expected name, leaving everything
else of the receiver unchanged. -/
def ExpectedEvent.named (e : ExpectedEvent) (name : String) : ExpectedEvent :=
  { e with metadata := { e.metadata with name := some name } }

/-- `ExpectedEvent::with_fields`: sets the expected fields, leaving
everything else of the receiver unchanged. -/
def ExpectedEvent.with_fields (e : ExpectedEvent) (fields : ExpectedFields) :
    ExpectedEvent :=
  { e with fields := some fields }

/-- `ExpectedEvent::at_level`: sets the expected level, leaving
everything else of the receiver unchanged. -/
def ExpectedEvent.at_level (e : ExpectedEvent) (level : Level) : ExpectedEvent :=
  { e with metadata := { e.metadata with level := some level } }

/-- `ExpectedEvent::with_target`: sets the expected target, leaving
everything else of the receiver unchanged. -/
def ExpectedEvent.with_target (e : ExpectedEvent) (target : String) :
    ExpectedEvent :=
  { e with metadata := { e.metadata with target := some target } }

/-- `ExpectedEvent::with_explicit_parent`: `none` declares the
`ExplicitRoot` constraint, `some name` declares the `Explicit(name)`
constraint. -/
def ExpectedEvent.with_explicit_parent (e : ExpectedEvent)
    (parent : Option String) : ExpectedEvent :=
  let p := match parent with
    | some name => Parent.explicitNamed name
    | none => Parent.explicitRoot
  { e with parent := some p }

/-- `ExpectedEvent::check`: run the metadata check, then assert the
callback is truly an event, then (when fields are declared) build the
field checker, drive it over the recorded fields and finish it, then
(when a parent constraint is declared) resolve the actual parent name
with `get_parent_name` and check the constraint. The first failing
stage determines the result, exactly as the Rust panics do. -/
def ExpectedEvent.check (e : ExpectedEvent) (event : Event)
    (get_parent_name : Unit → Option String) (collector_name : String) :
    Except Failure Unit :=
  match e.metadata.check event.metadata
      ("event \"" ++ event.metadata.name ++ "\"") collector_name with
  | Except.error err => Except.error err
  | Except.ok _ =>
    if event.metadata.is_event then
      match (match e.fields with
             | some expected_fields =>
               ((expected_fields.checker event.metadata.name
                  collector_name).record event.fields).finish
             | none => Except.ok ()) with
      | Except.error err => Except.error err
      | Except.ok _ =>
        match e.parent with
        | some expected_parent =>
          expected_parent.check_parent_name (get_parent_name ()) event.parent
            event.metadata.name collector_name
        | none => Except.ok ()
    else
      Except.error (Failure.kindMismatch collector_name)

/-- `ExpectedEvent::in_scope`: replaces the enclosing-scope sequence with
the given spans in iteration order, leaving everything else of the
receiver unchanged. -/
def ExpectedEvent.in_scope (e : ExpectedEvent) (spans : List ExpectedSpan) :
    ExpectedEvent :=
  { e with in_spans := spans }

/-- The metadata stage of `check`, as a standalone result. -/
def metadataStage (e : ExpectedEvent) (event : Event) (collector : String) :
    Except Failure Unit :=
  e.metadata.check event.metadata ("event \"" ++ event.metadata.name ++ "\"")
    collector

/-- The field stage of `check`, as a standalone result; trivially
succeeds when no fields were declared. -/
def fieldStage (e : ExpectedEvent) (event : Event) (collector : String) :
    Except Failure Unit :=
  match e.fields with
  | some expected_fields =>
    ((expected_fields.checker event.metadata.name collector).record
      event.fields).finish
  | none => Except.ok ()

/-- The parent stage of `check`, as a standalone result; trivially
succeeds when no parent constraint was declared. -/
def parentStage (e : ExpectedEvent) (event : Event)
    (get_parent_name : Unit → Option String) (collector : String) :
    Except Failure Unit :=
  match e.parent with
  | some expected_parent =>
    expected_parent.check_parent_name (get_parent_name ()) event.parent
      event.metadata.name collector
  | none => Except.ok ()

/-- The first error in a list of stage results, in order; succeeds when
every stage succeeds. -/
def firstFailure : List (Except Failure Unit) → Except Failure Unit
| [] => Except.ok ()
| r :: rest =>
  match r with
  | Except.error e => Except.error e
  | Except.ok _ => firstFailure rest

/-- A concrete actual event used to instantiate the theorems. -/
def sampleEvent : Event :=
  { metadata := { name := "e", target := "t", level := Level.info,
                  is_event := true },
    fields := [("k", FieldValue.str "v")], parent := none }

/-- A concrete actual event carrying an explicit parent span id. -/
def sampleEventWithParent : Event :=
  { metadata := { name := "e", target := "t", level := Level.info,
                  is_event := true },
    fields := [], parent := some 3 }

/-- A concrete non-event callback (a span seen where an event was
expected). -/
def sampleNonEvent : Event :=
  { metadata := { name := "new_span", target := "t", level := Level.info,
                  is_event := false },
    fields := [], parent := none }

/-- A concrete actual event at the ERROR level. -/
def sampleErrorEvent : Event :=
  { metadata := { name := "e", target := "t", level := Level.error,
                  is_event := true },
    fields := [], parent := none }

lemma firstFailure_error (err : Failure) (rest : List (Except Failure Unit)) :
    firstFailure (Except.error err :: rest) = Except.error err := rfl

lemma firstFailure_ok (rest : List (Except Failure Unit)) :
    firstFailure (Except.ok () :: rest) = firstFailure rest := rfl

lemma firstFailure_single (r : Except Failure Unit) : firstFailure [r] = r := by
  cases r with
  | error err => rfl
  | ok u => cases u; rfl

/-- A metadata-stage failure is the result of `check`, whatever the later
stages would say. -/
lemma check_error_of_metadata_error (e : ExpectedEvent) (ev : Event)
    (f : Unit → Option String) (c : String) (err : Failure)
    (h : metadataStage e ev c = Except.error err) :
    e.check ev f c = Except.error err := by
  unfold ExpectedEvent.check
  rw [show e.metadata.check ev.metadata ("event \"" ++ ev.metadata.name ++ "\"") c
        = Except.error err from h]

/-- `check` is the first failure of its stages, in their run order. -/
lemma check_eq_stages (e : ExpectedEvent) (ev : Event)
    (f : Unit → Option String) (c : String)
    (hev : ev.metadata.is_event = true) :
    e.check ev f c = firstFailure
      [metadataStage e ev c, fieldStage e ev c, parentStage e ev f c] := by
  unfold ExpectedEvent.check
  split
  case h_1 err heq =>
    rw [show metadataStage e ev c = Except.error err from heq, firstFailure_error]
  case h_2 u heq =>
    rw [show metadataStage e ev c = Except.ok () from heq, firstFailure_ok,
      if_pos hev]
    split
    case h_1 err2 heq2 =>
      rw [show fieldStage e ev c = Except.error err2 from heq2,
        firstFailure_error]
    case h_2 v heq2 =>
      rw [show fieldStage e ev c = Except.ok () from heq2, firstFailure_ok,
        firstFailure_single]
      rfl

/-- C1: a default-constructed `ExpectedEvent` (no name, target, level,
fields or parent constraint declared) succeeds on every actual event
callback — unconstrained attributes never cause a failure. -/
theorem default_expected_event_check_ok (ev : Event)
    (f : Unit → Option String) (c : String)
    (hev : ev.metadata.is_event = true) :
    ExpectedEvent.default.check ev f c = Except.ok () := by
  simp [ExpectedEvent.check, ExpectedEvent.default, ExpectedMetadata.check,
    ExpectedMetadata.mismatchedAttrs, hev]

/-- Witness for C1 at a concrete event with a name, target, level and a
recorded field. -/
theorem default_expected_event_check_ok_witness :
    ExpectedEvent.default.check
      { metadata := { name := "event src/lib.rs:10", target := "app",
                      level := Level.info, is_event := true },
        fields := [("x", FieldValue.uint 1)], parent := none }
      (fun _ => none) "mock" = Except.ok () :=
  default_expected_event_check_ok _ _ _ rfl

/-- C6: each builder method returns a descriptor in which only the
constraint it names changed; every other constraint field is unchanged
from the receiver. -/
theorem builders_change_only_their_constraint (e : ExpectedEvent)
    (n t : String) (L : Level) (fs : ExpectedFields) (p : Option String) :
    ((e.named n).metadata.name = some n ∧
      (e.named n).metadata.target = e.metadata.target ∧
      (e.named n).metadata.level = e.metadata.level ∧
      (e.named n).fields = e.fields ∧
      (e.named n).parent = e.parent ∧
      (e.named n).in_spans = e.in_spans) ∧
    ((e.with_fields fs).fields = some fs ∧
      (e.with_fields fs).metadata = e.metadata ∧
      (e.with_fields fs).parent = e.parent ∧
      (e.with_fields fs).in_spans = e.in_spans) ∧
    ((e.at_level L).metadata.level = some L ∧
      (e.at_level L).metadata.name = e.metadata.name ∧
      (e.at_level L).metadata.target = e.metadata.target ∧
      (e.at_level L).fields = e.fields ∧
      (e.at_level L).parent = e.parent ∧
      (e.at_level L).in_spans = e.in_spans) ∧
    ((e.with_target t).metadata.target = some t ∧
      (e.with_target t).metadata.name = e.metadata.name ∧
      (e.with_target t).metadata.level = e.metadata.level ∧
      (e.with_target t).fields = e.fields ∧
      (e.with_target t).parent = e.parent ∧
      (e.with_target t).in_spans = e.in_spans) ∧
    ((e.with_explicit_parent p).parent =
        some (match p with
              | some name => Parent.explicitNamed name
              | none => Parent.explicitRoot) ∧
      (e.with_explicit_parent p).metadata = e.metadata ∧
      (e.with_explicit_parent p).fields = e.fields ∧
      (e.with_explicit_parent p).in_spans = e.in_spans) :=
  ⟨⟨rfl, rfl, rfl, rfl, rfl, rfl⟩,
   ⟨rfl, rfl, rfl, rfl⟩,
   ⟨rfl, rfl, rfl, rfl, rfl, rfl⟩,
   ⟨rfl, rfl, rfl, rfl, rfl, rfl⟩,
   ⟨rfl, rfl, rfl, rfl⟩⟩

/-- C10: `in_scope` replaces the whole enclosing-scope sequence with
exactly the given spans (any previous scope is discarded) and leaves
metadata, fields and parent unchanged. -/
theorem in_scope_replaces_entire_scope (e : ExpectedEvent)
    (spans : List ExpectedSpan) :
    (e.in_scope spans).in_spans = spans ∧
    (e.in_scope spans).metadata = e.metadata ∧
    (e.in_scope spans).fields = e.fields ∧
    (e.in_scope spans).parent = e.parent :=
  ⟨rfl, rfl, rfl, rfl⟩

/-- C8: when no parent constraint is declared, `check` never consults
`get_parent_name`: the outcome is the same for every parent-resolution
function. -/
theorem check_independent_of_get_parent_name (e : ExpectedEvent) (ev : Event)
    (c : String) (h : e.parent = none) (f g : Unit → Option String) :
    e.check ev f c = e.check ev g c := by
  simp only [ExpectedEvent.check, h]

/-- Witness for C8 at a concrete expectation with no parent constraint
and two parent-resolution functions that disagree everywhere. -/
theorem check_independent_of_get_parent_name_witness :
    ExpectedEvent.default.parent = none ∧
    ExpectedEvent.default.check
        { metadata := { name := "e", target := "t", level := Level.warn,
                        is_event := true },
          fields := [], parent := some 7 }
        (fun _ => some "root_span") "mock"
      = ExpectedEvent.default.check
        { metadata := { name := "e", target := "t", level := Level.warn,
                        is_event := true },
          fields := [], parent := some 7 }
        (fun _ => none) "mock" :=
  ⟨rfl, check_independent_of_get_parent_name _ _ _ rfl _ _⟩

/-- C9: when no field expectation is declared, `check` never visits the
recorded fields: two events that agree on metadata and parent but have
arbitrary (possibly different) recorded fields produce the same
outcome, so any actual field set is accepted as far as fields are
concerned. -/
theorem check_independent_of_recorded_fields (e : ExpectedEvent)
    (ev₁ ev₂ : Event) (f : Unit → Option String) (c : String)
    (h : e.fields = none) (hm : ev₁.metadata = ev₂.metadata)
    (hp : ev₁.parent = ev₂.parent) :
    e.check ev₁ f c = e.check ev₂ f c := by
  simp only [ExpectedEvent.check, h, hm, hp]

/-- Witness for C9 at a concrete expectation with no declared fields and
two events whose recorded field sets differ. -/
theorem check_independent_of_recorded_fields_witness :
    (ExpectedEvent.default.named "e").fields = none ∧
    (ExpectedEvent.default.named "e").check
        { metadata := { name := "e", target := "t", level := Level.info,
                        is_event := true },
          fields := [("k", FieldValue.str "v"), ("n", FieldValue.int (-3))],
          parent := none }
        (fun _ => none) "mock"
      = (ExpectedEvent.default.named "e").check
        { metadata := { name := "e", target := "t", level := Level.info,
                        is_event := true },
          fields := [], parent := none }
        (fun _ => none) "mock" :=
  ⟨rfl, check_independent_of_recorded_fields _ _ _ _ _ rfl rfl rfl⟩

/-- C3: within `check` the matchers run in order — the Metadata Matcher
first, then (when fields are declared) the Field Matcher over the
recorded fields, then the parent constraint check; the result is the
first failing stage's failure, so an earlier failure is raised before
any later stage runs. -/
theorem check_runs_stages_in_order (e : ExpectedEvent) (ev : Event)
    (f : Unit → Option String) (c : String)
    (hev : ev.metadata.is_event = true) :
    e.check ev f c = firstFailure
      [metadataStage e ev c, fieldStage e ev c, parentStage e ev f c] :=
  check_eq_stages e ev f c hev

/-- Witness for C3 at a concrete expectation and concrete event. -/
theorem check_runs_stages_in_order_witness :
    sampleEvent.metadata.is_event = true ∧
    (ExpectedEvent.default.named "x").check sampleEvent (fun _ => none) "mock"
      = firstFailure
        [metadataStage (ExpectedEvent.default.named "x") sampleEvent "mock",
         fieldStage (ExpectedEvent.default.named "x") sampleEvent "mock",
         parentStage (ExpectedEvent.default.named "x") sampleEvent
           (fun _ => none) "mock"] :=
  ⟨rfl, check_runs_stages_in_order _ _ _ _ rfl⟩

/-- C2 counterexample: checking a non-event callback whose name disagrees
with the declared name reports the metadata mismatch, not the kind
mismatch — so the kind check does not run before the Metadata Matcher. -/
theorem metadata_mismatch_reported_on_non_event :
    (ExpectedEvent.default.named "expected").check
        { metadata := { name := "actual", target := "t", level := Level.info,
                        is_event := false },
          fields := [], parent := none }
        (fun _ => none) "mock"
      = Except.error (Failure.metadataMismatch "mock"
          ("event \"" ++ "actual" ++ "\"") ["name"]) := by
  rfl

/-- C2 (amended): the kind check runs after the Metadata Matcher — on a
callback whose actual kind is not an event and whose metadata passes
the metadata check, `check` fails with the kind mismatch, before the
field and parent stages. -/
theorem kind_mismatch_raised_after_metadata_passes (e : ExpectedEvent)
    (ev : Event) (f : Unit → Option String) (c : String)
    (hkind : ev.metadata.is_event = false)
    (hmeta : metadataStage e ev c = Except.ok ()) :
    e.check ev f c = Except.error (Failure.kindMismatch c) := by
  unfold ExpectedEvent.check
  split
  case h_1 err heq =>
    rw [show metadataStage e ev c = Except.error err from heq] at hmeta
    exact Except.noConfusion hmeta
  case h_2 u heq =>
    simp [hkind]

/-- Witness for C2's amended theorem at a concrete non-event callback
whose metadata passes the (unconstrained) metadata check. -/
theorem kind_mismatch_raised_after_metadata_passes_witness :
    sampleNonEvent.metadata.is_event = false ∧
    metadataStage ExpectedEvent.default sampleNonEvent "mock" = Except.ok () ∧
    ExpectedEvent.default.check sampleNonEvent (fun _ => none) "mock"
      = Except.error (Failure.kindMismatch "mock") :=
  ⟨rfl, rfl, kind_mismatch_raised_after_metadata_passes _ _ _ _ rfl rfl⟩

/-- C4: `with_explicit_parent none` declares the `ExplicitRoot`
constraint and `with_explicit_parent (some n)` declares the
`Explicit(n)` constraint; assuming the metadata stage passes, the
callback is truly an event and no fields are declared, `check` enforces
them against the resolved actual parent: the `ExplicitRoot` expectation
succeeds exactly when the event carries no explicit parent, and the
`Explicit(n)` expectation succeeds exactly when the event carries an
explicit parent whose resolved name is exactly `n`. -/
theorem with_explicit_parent_enforced (e : ExpectedEvent) (ev : Event)
    (f : Unit → Option String) (c : String)
    (hmeta : metadataStage e ev c = Except.ok ())
    (hev : ev.metadata.is_event = true)
    (hfields : e.fields = none) :
    (e.with_explicit_parent none).parent = some Parent.explicitRoot ∧
    (∀ n, (e.with_explicit_parent (some n)).parent
        = some (Parent.explicitNamed n)) ∧
    ((e.with_explicit_parent none).check ev f c = Except.ok () ↔
      ev.parent = none) ∧
    (∀ n, ((e.with_explicit_parent (some n)).check ev f c = Except.ok () ↔
      (ev.parent.isSome = true ∧ f () = some n))) := by
  have hfs : ∀ q, fieldStage (e.with_explicit_parent q) ev c = Except.ok () := by
    intro q
    simp [fieldStage, ExpectedEvent.with_explicit_parent, hfields]
  have hchk : ∀ q, (e.with_explicit_parent q).check ev f c
      = parentStage (e.with_explicit_parent q) ev f c := by
    intro q
    have hm2 : metadataStage (e.with_explicit_parent q) ev c = Except.ok () :=
      hmeta
    rw [check_eq_stages _ _ _ _ hev, hm2, hfs q, firstFailure_ok,
      firstFailure_ok, firstFailure_single]
  refine ⟨rfl, fun n => rfl, ?_, fun n => ?_⟩
  · rw [hchk none]
    cases hp : ev.parent with
    | none =>
      simp [parentStage, ExpectedEvent.with_explicit_parent,
        Parent.check_parent_name, hp]
    | some i =>
      simp [parentStage, ExpectedEvent.with_explicit_parent,
        Parent.check_parent_name, hp]
  · rw [hchk (some n)]
    cases hp : ev.parent with
    | none =>
      simp [parentStage, ExpectedEvent.with_explicit_parent,
        Parent.check_parent_name, hp]
    | some i =>
      by_cases hf2 : f () = some n
      · simp [parentStage, ExpectedEvent.with_explicit_parent,
          Parent.check_parent_name, hp, hf2]
      · simp [parentStage, ExpectedEvent.with_explicit_parent,
          Parent.check_parent_name, hp, hf2]

/-- Witness for C4 at a concrete expectation and a concrete event that
carries the explicit parent span id 3, resolved to the name
"parent_span". -/
theorem with_explicit_parent_enforced_witness :
    metadataStage ExpectedEvent.default sampleEventWithParent "mock"
        = Except.ok () ∧
    sampleEventWithParent.metadata.is_event = true ∧
    ExpectedEvent.default.fields = none ∧
    ((ExpectedEvent.default.with_explicit_parent none).parent
        = some Parent.explicitRoot ∧
      (∀ n, (ExpectedEvent.default.with_explicit_parent (some n)).parent
          = some (Parent.explicitNamed n)) ∧
      ((ExpectedEvent.default.with_explicit_parent none).check
          sampleEventWithParent (fun _ => some "parent_span") "mock"
            = Except.ok () ↔
        sampleEventWithParent.parent = none) ∧
      (∀ n, ((ExpectedEvent.default.with_explicit_parent (some n)).check
          sampleEventWithParent (fun _ => some "parent_span") "mock"
            = Except.ok () ↔
        (sampleEventWithParent.parent.isSome = true ∧
          some "parent_span" = some n)))) :=
  ⟨rfl, rfl, rfl, with_explicit_parent_enforced _ _ _ _ rfl rfl rfl⟩

/-- Under a declared mismatch, the metadata check fails with the full
mismatch list. -/
lemma metadata_check_error_of_mismatch (em : ExpectedMetadata) (m : Metadata)
    (ctx c : String) (h : ¬ em.mismatchedAttrs m = []) :
    em.check m ctx c
      = Except.error (Failure.metadataMismatch c ctx (em.mismatchedAttrs m)) := by
  unfold ExpectedMetadata.check
  rw [if_neg h]

/-- C5: for an expectation built with `at_level L`, `check` succeeds only
when the actual event's level is exactly `L`; any other actual level
(more severe ones included) makes the metadata check fail with a
mismatch report naming the level attribute. -/
theorem at_level_requires_exact_level (e : ExpectedEvent) (L : Level)
    (ev : Event) (f : Unit → Option String) (c : String) :
    ((e.at_level L).check ev f c = Except.ok () → ev.metadata.level = L) ∧
    (ev.metadata.level ≠ L →
      ∃ attrs,
        (e.at_level L).check ev f c
          = Except.error (Failure.metadataMismatch c
              ("event \"" ++ ev.metadata.name ++ "\"") attrs) ∧
        "level" ∈ attrs) := by
  have hsplit : (e.at_level L).metadata.mismatchedAttrs ev.metadata
      = ((match e.metadata.name with
          | some n => if n = ev.metadata.name then [] else ["name"]
          | none => []) ++
         (match e.metadata.target with
          | some t => if t = ev.metadata.target then [] else ["target"]
          | none => [])) ++
        (if L = ev.metadata.level then [] else ["level"]) := rfl
  have key : ev.metadata.level ≠ L →
      ∃ attrs,
        (e.at_level L).check ev f c
          = Except.error (Failure.metadataMismatch c
              ("event \"" ++ ev.metadata.name ++ "\"") attrs) ∧
        "level" ∈ attrs := by
    intro h
    have hC : (if L = ev.metadata.level then ([] : List String) else ["level"])
        = ["level"] := if_neg (fun heq => h heq.symm)
    have hne : ¬ (e.at_level L).metadata.mismatchedAttrs ev.metadata = [] := by
      rw [hsplit, hC]
      simp
    refine ⟨(e.at_level L).metadata.mismatchedAttrs ev.metadata, ?_, ?_⟩
    · exact check_error_of_metadata_error _ _ _ _ _
        (metadata_check_error_of_mismatch _ _ _ _ hne)
    · rw [hsplit, hC]
      simp
  refine ⟨?_, key⟩
  intro hok
  by_contra hne2
  obtain ⟨attrs, herr, -⟩ := key hne2
  rw [herr] at hok
  exact Except.noConfusion hok

/-- Witness for C5 at a concrete actual event at the ERROR level checked
against an INFO-level expectation (a more severe level still fails). -/
theorem at_level_requires_exact_level_witness :
    sampleErrorEvent.metadata.level ≠ Level.info ∧
    ∃ attrs,
      (ExpectedEvent.default.at_level Level.info).check sampleErrorEvent
          (fun _ => none) "mock"
        = Except.error (Failure.metadataMismatch "mock"
            ("event \"" ++ sampleErrorEvent.metadata.name ++ "\"") attrs) ∧
      "level" ∈ attrs :=
  ⟨by decide,
   (at_level_requires_exact_level ExpectedEvent.default Level.info
      sampleErrorEvent (fun _ => none) "mock").2 (by decide)⟩

/-- The discrepancy contributed by visiting one actual key/value pair,
as a direct function of the declared fields (no checker state). -/
def visitFailure (fs : ExpectedFields) (k : String) (v : FieldValue) :
    Option FieldFailure :=
  match lookupField fs.fields k with
  | some m =>
    if m.accepts v then none else some (FieldFailure.wrongValue k m v)
  | none =>
    match fs.mode with
    | FieldMode.exact => some (FieldFailure.unexpectedField k v)
    | FieldMode.contains => none

lemma visit_expected (c : Checker) (k : String) (v : FieldValue) :
    (c.visit k v).expected = c.expected := by
  unfold Checker.visit
  split <;> split <;> rfl

lemma visit_failures (c : Checker) (k : String) (v : FieldValue) :
    (c.visit k v).failures
      = c.failures ++ (visitFailure c.expected k v).toList := by
  unfold Checker.visit visitFailure
  split <;> split <;> simp

lemma record_failures_append (l : List (String × FieldValue)) (c : Checker) :
    (c.record l).failures
      = c.failures ++ l.filterMap (fun kv => visitFailure c.expected kv.1 kv.2) := by
  induction l generalizing c with
  | nil => simp [Checker.record]
  | cons kv rest ih =>
    have h1 : c.record (kv :: rest) = (c.visit kv.1 kv.2).record rest := rfl
    rw [h1, ih, visit_expected, visit_failures]
    cases hv : visitFailure c.expected kv.1 kv.2 <;>
      simp [List.filterMap_cons, hv]

/-- C7: field matching is a single accumulating pass — the pass never
raises a failure by itself (it only extends the checker's failure
list), every discrepancy found over the actual key/value pairs is
accumulated in order with no short-circuit on the first mismatch, and
only `finish` converts the accumulated and missing-field discrepancies
into a single report carrying the collector's label and the event
name. -/
theorem field_failures_accumulate_until_finish (fs : ExpectedFields)
    (actual : List (String × FieldValue)) (name collector : String) :
    ((fs.checker name collector).record actual).failures
      = actual.filterMap (fun kv => visitFailure fs kv.1 kv.2) ∧
    (∀ c : Checker,
      c.finish
        = if c.failures ++ c.missingFailures = [] then Except.ok ()
          else Except.error
            (Failure.fieldMismatch c.collector c.ctx
              (c.failures ++ c.missingFailures))) := by
  constructor
  · rw [record_failures_append]
    rfl
  · intro c
    rfl

end TracingMock
